import Mathlib

/-!
Verification of the Minervini screening / trade-journal core.

The screening orchestrator (`run_screening`), screening-result display and
journal aggregate computations live in `src/main.py` and are embedded below.
The per-symbol screener (`utils/screener.py`) and the journal store
(`utils/journal.py`) are not part of the source tree; the definitions that
stand in for them are modelled from the specification and carry a
`Modelled from the spec:` doc comment.

Prices, indicator values and P&L are embedded as rationals (`ℚ`).
-/

namespace Minervini

/-- One per-symbol screening record, with the fields `run_screening`
(`src/main.py` lines 199–211) actually inspects: the `Criteria_Met` flag
and the `CRV` (reward-to-risk) column used for filtering and sorting. -/
structure ScreenRec where
  ticker : String
  crv : ℚ
  criteriaMet : Bool
deriving DecidableEq

/-! ### Deduplication of the ticker universe (main.py line 173)

`unique_tickers = list(dict.fromkeys(all_tickers))`: a Python dict keeps
insertion order and ignores re-inserted keys, so this is a left fold that
appends each ticker the first time it is seen. -/

/-- One step of `dict.fromkeys`: append the key unless it was seen already. -/
def insertKey {α : Type} [DecidableEq α] (acc : List α) (a : α) : List α :=
  if a ∈ acc then acc else acc ++ [a]

/-- `list(dict.fromkeys(l))` from `src/main.py` line 173. -/
def fromKeys {α : Type} [DecidableEq α] (l : List α) : List α :=
  l.foldl insertKey []

/-- The spec's wording of the deduplication contract, stated structurally:
keep the head (the first occurrence) and deduplicate the rest with all
later copies of the head removed. -/
def dedupSpec {α : Type} [DecidableEq α] : List α → List α
  | [] => []
  | a :: l => a :: dedupSpec (l.filter (· ≠ a))
termination_by l => l.length
decreasing_by
  simp only [List.length_cons]
  exact Nat.lt_succ_of_le (List.length_filter_le _ _)

theorem foldl_insertKey {α : Type} [DecidableEq α] :
    ∀ (l acc : List α), l.foldl insertKey acc = acc ++ dedupSpec (l.filter (· ∉ acc))
  | [], acc => by simp [dedupSpec]
  | a :: l, acc => by
    by_cases h : a ∈ acc
    · have hstep : insertKey acc a = acc := by simp [insertKey, h]
      have hfilter : (a :: l).filter (· ∉ acc) = l.filter (· ∉ acc) := by
        simp [List.filter_cons, h]
      rw [List.foldl_cons, hstep, hfilter, foldl_insertKey l acc]
    · have hstep : insertKey acc a = acc ++ [a] := by simp [insertKey, h]
      have hfilter : (a :: l).filter (· ∉ acc) = a :: l.filter (· ∉ acc) := by
        simp [List.filter_cons, h]
      rw [List.foldl_cons, hstep, foldl_insertKey l (acc ++ [a]), hfilter]
      have hff : l.filter (· ∉ acc ++ [a]) =
          (l.filter (· ∉ acc)).filter (· ≠ a) := by
        rw [List.filter_filter]
        apply List.filter_congr
        intro x _
        by_cases hx : x = a <;> by_cases hx' : x ∈ acc <;> simp [hx, hx']
      rw [dedupSpec, List.append_assoc, List.singleton_append, hff, List.filter_comm]
termination_by l => l.length

/-- `fromKeys` agrees with the structural first-occurrence dedup. -/
theorem fromKeys_eq_dedupSpec {α : Type} [DecidableEq α] (l : List α) :
    fromKeys l = dedupSpec l := by
  have h := foldl_insertKey l []
  simpa [fromKeys] using h

theorem mem_dedupSpec {α : Type} [DecidableEq α] :
    ∀ (l : List α) (x : α), x ∈ dedupSpec l ↔ x ∈ l
  | [], x => by simp [dedupSpec]
  | a :: l, x => by
    rw [dedupSpec]
    by_cases hx : x = a
    · simp [hx]
    · simp only [List.mem_cons, hx, false_or]
      rw [mem_dedupSpec (l.filter (· ≠ a)) x]
      simp [List.mem_filter, hx]
termination_by l => l.length
decreasing_by
  simp only [List.length_cons]
  exact Nat.lt_succ_of_le (List.length_filter_le _ _)

theorem nodup_dedupSpec {α : Type} [DecidableEq α] :
    ∀ l : List α, (dedupSpec l).Nodup
  | [] => by simp [dedupSpec]
  | a :: l => by
    rw [dedupSpec]
    refine List.nodup_cons.2 ⟨?_, nodup_dedupSpec (l.filter (· ≠ a))⟩
    intro hmem
    rw [mem_dedupSpec] at hmem
    have := (List.mem_filter.1 hmem).2
    simp at this
termination_by l => l.length
decreasing_by
  all_goals simp only [List.length_cons]
  all_goals exact Nat.lt_succ_of_le (List.length_filter_le _ _)

theorem dedupSpec_sublist {α : Type} [DecidableEq α] :
    ∀ l : List α, (dedupSpec l).Sublist l
  | [] => by simp [dedupSpec]
  | a :: l => by
    rw [dedupSpec]
    exact List.Sublist.cons₂ a
      ((dedupSpec_sublist (l.filter (· ≠ a))).trans (List.filter_sublist l))
termination_by l => l.length
decreasing_by
  simp only [List.length_cons]
  exact Nat.lt_succ_of_le (List.length_filter_le _ _)

/-- C7: `list(dict.fromkeys(all_tickers))` (`src/main.py` line 173)
deduplicates the symbol universe order-preservingly: it equals the
structural first-occurrence dedup, contains no duplicates (each distinct
symbol is screened exactly once), keeps exactly the symbols of the input,
and is a subsequence of the input (order preserved, first occurrences
kept). -/
theorem dedup_first_occurrence {α : Type} [DecidableEq α] (l : List α) :
    fromKeys l = dedupSpec l ∧
    (fromKeys l).Nodup ∧
    (∀ x, x ∈ fromKeys l ↔ x ∈ l) ∧
    (fromKeys l).Sublist l := by
  rw [fromKeys_eq_dedupSpec]
  exact ⟨rfl, nodup_dedupSpec l, fun x => mem_dedupSpec l x, dedupSpec_sublist l⟩

/-! ### Batched screening loop (main.py lines 183–197)

`for i in range(0, total_stocks, batch_size): batch = unique_tickers[i:i+batch_size]`.
Python's `range` step is at least 1, so the batch size is encoded as
`bs + 1` for a parameter `bs : Nat`: every batch size ≥ 1 is covered. -/

/-- The successive slices `l[i : i + (bs+1)]` for `i = 0, bs+1, 2(bs+1), …`
(`src/main.py` lines 186–187). -/
def chunks {α : Type} (bs : Nat) : List α → List (List α)
  | [] => []
  | a :: l => (a :: l).take (bs + 1) :: chunks bs ((a :: l).drop (bs + 1))
termination_by l => l.length
decreasing_by
  simp only [List.drop_succ_cons, List.length_cons, List.length_drop]
  omega

theorem join_chunks {α : Type} (bs : Nat) :
    ∀ l : List α, (chunks bs l).flatten = l
  | [] => by simp [chunks]
  | a :: l => by
    rw [chunks, List.flatten_cons, join_chunks bs ((a :: l).drop (bs + 1))]
    exact List.take_append_drop _ _
termination_by l => l.length
decreasing_by
  simp only [List.drop_succ_cons, List.length_cons, List.length_drop]
  omega

/-- Modelled from the spec: `StockScreener.screen_batch`
(`utils/screener.py`, which is not under `src/`) screens each symbol of the
batch independently through fetch → indicators → criteria → trade plan;
any fetch/compute failure for a symbol yields no record (`None`) for that
symbol (§4.4, §7). The per-symbol pipeline is the parameter `f`. -/
def screen_batch {α : Type} (f : String → Option α) (batch : List String) :
    List (Option α) :=
  batch.map f

/-- The accumulated `results` list of the batch loop
(`src/main.py` lines 183–197): each batch's records are appended in order. -/
def batched_results {α : Type} (f : String → Option α) (bs : Nat)
    (tickers : List String) : List (Option α) :=
  ((chunks bs tickers).map (screen_batch f)).flatten

/-- `successful_results = [r for r in results if r is not None]`
(`src/main.py` line 200). -/
def successful_results {α : Type} (results : List (Option α)) : List α :=
  results.filterMap id

/-- Descending-CRV order: `a` comes before `b` when `b`'s CRV is no larger. -/
def crvDesc (a b : ScreenRec) : Prop := b.crv ≤ a.crv

instance : DecidableRel crvDesc := fun a b =>
  inferInstanceAs (Decidable (b.crv ≤ a.crv))

instance : IsTotal ScreenRec crvDesc :=
  ⟨fun a b => (le_total b.crv a.crv).imp id id⟩

instance : IsTrans ScreenRec crvDesc :=
  ⟨fun _ _ _ h1 h2 => le_trans h2 h1⟩

/-- `df_filtered.sort_values('CRV', ascending=False)`
(`src/main.py` line 209): sort the records by descending CRV. -/
def sort_by_crv (l : List ScreenRec) : List ScreenRec :=
  l.insertionSort crvDesc

/-- `src/main.py` lines 199–229: keep the non-`None` records, keep those
with `Criteria_Met == True`, sort by descending CRV; if no record
succeeded, store an empty result set (line 229). -/
def run_screening_core (results : List (Option ScreenRec)) : List ScreenRec :=
  if (successful_results results).isEmpty then []
  else sort_by_crv ((successful_results results).filter (fun r => r.criteriaMet))

/-- `run_screening` (`src/main.py` lines 156–234) as a transition on the
stored result set `st.session_state.screening_results`: `load` is the
ticker-universe loading (lines 164–169, may raise), `screen` is the
screening of the deduplicated universe (lines 183–197, may raise); any
exception is caught at line 231 and the stored set `prev` is left as it
was; an empty universe returns early at line 178 without storing. -/
def run_screening (prev : List ScreenRec) (load : Except String (List String))
    (screen : List String → Except String (List (Option ScreenRec))) :
    List ScreenRec :=
  match load with
  | .error _ => prev
  | .ok allTickers =>
    let unique := fromKeys allTickers
    if unique.isEmpty then prev
    else
      match screen unique with
      | .error _ => prev
      | .ok results => run_screening_core results

/-- `run_screening` with the concrete batch loop of lines 183–197 plugged
in as the screening stage (batch size `bs + 1`). -/
def run_screening_batched (prev : List ScreenRec)
    (load : Except String (List String)) (f : String → Option ScreenRec)
    (bs : Nat) : List ScreenRec :=
  run_screening prev load (fun u => Except.ok (batched_results f bs u))

/-! ### Theorems about the orchestrator -/

theorem batched_results_eq_map {α : Type} (f : String → Option α) (bs : Nat)
    (tickers : List String) : batched_results f bs tickers = tickers.map f := by
  unfold batched_results screen_batch
  rw [← List.map_flatten, join_chunks]

/-- C8: the result set of the batched screening loop
(`src/main.py` lines 183–197) is the same for every batch size (the
parameter `bs` encodes batch size `bs + 1`, covering every positive batch
size): the accumulated raw results are independent of the batch size, and
so is the whole stored result set of a run. -/
theorem batch_size_irrelevant (prev : List ScreenRec)
    (load : Except String (List String)) (f : String → Option ScreenRec)
    (bs₁ bs₂ : Nat) (tickers : List String) :
    batched_results f bs₁ tickers = batched_results f bs₂ tickers ∧
    run_screening_batched prev load f bs₁ = run_screening_batched prev load f bs₂ := by
  refine ⟨by rw [batched_results_eq_map, batched_results_eq_map], ?_⟩
  unfold run_screening_batched
  have h : (fun u => Except.ok (ε := String) (batched_results f bs₁ u)) =
      (fun u => Except.ok (batched_results f bs₂ u)) := by
    funext u
    rw [batched_results_eq_map, batched_results_eq_map]
  rw [h]

/-- C10: `run_screening` stores a new result set only on its success
paths; when the ticker-universe loading raises, or the screening stage
raises, the exception is caught (`src/main.py` lines 231–234) and the
previously stored result set is returned unchanged. -/
theorem error_preserves_stored_results (prev : List ScreenRec) (msg : String)
    (screen : List String → Except String (List (Option ScreenRec)))
    (allTickers : List String) :
    run_screening prev (Except.error msg) screen = prev ∧
    (screen (fromKeys allTickers) = Except.error msg →
      run_screening prev (Except.ok allTickers) screen = prev) := by
  refine ⟨rfl, fun h => ?_⟩
  unfold run_screening
  by_cases he : (fromKeys allTickers).isEmpty
  · simp [he]
  · simp [he, h]

/-- A witness for C10: with one ticker and a screening stage that raises,
the previously stored record survives the run. -/
theorem error_preserves_stored_results_witness :
    run_screening [⟨"A", 3, true⟩] (Except.ok ["A"])
      (fun _ => Except.error "boom") = [⟨"A", 3, true⟩] :=
  (error_preserves_stored_results [⟨"A", 3, true⟩] "boom"
    (fun _ => Except.error "boom") ["A"]).2 rfl

theorem successful_screen_batch {α : Type} (f : String → Option α)
    (l : List String) :
    successful_results (screen_batch f l) = l.filterMap f := by
  unfold successful_results screen_batch
  rw [List.filterMap_map]
  simp [Function.comp]

/-- C3: a fetch/compute failure for one symbol (`f s = none`) removes only
that symbol from the successful results (`src/main.py` lines 199–200): the
run over `xs ++ s :: ys` equals the run over `xs` followed by the run over
`ys` — screening continues past the failure and no partial record for `s`
is emitted — and every record of the output originates from some symbol
that screened successfully. -/
theorem per_symbol_failure_isolated (f : String → Option ScreenRec)
    (xs ys : List String) (s : String) (hfail : f s = none) :
    successful_results (screen_batch f (xs ++ s :: ys)) =
      successful_results (screen_batch f xs) ++
        successful_results (screen_batch f ys) ∧
    ∀ r ∈ successful_results (screen_batch f (xs ++ s :: ys)),
      ∃ t ∈ xs ++ s :: ys, f t = some r := by
  simp only [successful_screen_batch]
  constructor
  · rw [List.filterMap_append, List.filterMap_cons, hfail]
  · intro r hr
    exact List.mem_filterMap.1 hr

/-- The per-symbol pipeline used by concrete examples: the symbol `BAD`
fails, every other symbol yields a passing record with CRV 1. -/
def screenEx : String → Option ScreenRec := fun s =>
  if s = "BAD" then none else some ⟨s, 1, true⟩

/-- A witness for C3: with `BAD` failing between `A` and `B`, the
successful results are exactly those of `A` and `B`. -/
theorem per_symbol_failure_isolated_witness :
    successful_results (screen_batch screenEx (["A"] ++ "BAD" :: ["B"])) =
      successful_results (screen_batch screenEx ["A"]) ++
        successful_results (screen_batch screenEx ["B"]) :=
  (per_symbol_failure_isolated screenEx ["A"] ["B"] "BAD" rfl).1

/-- C2: a non-empty stored result set (`src/main.py` lines 199–211) is
sorted by descending CRV and contains only records whose criteria decision
is pass (`Criteria_Met == True`). -/
theorem result_set_sorted_and_passing (results : List (Option ScreenRec))
    (h : run_screening_core results ≠ []) :
    List.Sorted crvDesc (run_screening_core results) ∧
    ∀ r ∈ run_screening_core results, r.criteriaMet = true := by
  unfold run_screening_core
  by_cases he : (successful_results results).isEmpty
  · exact absurd (by unfold run_screening_core; simp [he]) h
  · simp only [he, Bool.false_eq_true, if_false]
    refine ⟨List.sorted_insertionSort crvDesc _, fun r hr => ?_⟩
    unfold sort_by_crv at hr
    have hmem := (List.perm_insertionSort crvDesc
      ((successful_results results).filter (fun r => r.criteriaMet))).mem_iff.1 hr
    exact (List.mem_filter.1 hmem).2

/-- A witness for C2: a run with two passing records stores a non-empty,
descending-CRV-sorted result set. -/
theorem result_set_sorted_and_passing_witness :
    List.Sorted crvDesc (run_screening_core [some ⟨"A", 3, true⟩, some ⟨"B", 5, true⟩]) :=
  (result_set_sorted_and_passing [some ⟨"A", 3, true⟩, some ⟨"B", 5, true⟩]
    (by decide)).1

/-! ### Trade Plan Calculator (spec §4.3)

The per-symbol trade-plan arithmetic lives in `utils/screener.py`, which is
not part of the source tree; it is modelled from the specification. -/

structure TradePlan where
  entry : ℚ
  stop : ℚ
  target : ℚ
  tp50 : ℚ
  tp75 : ℚ
  rewardToRisk : ℚ
deriving DecidableEq

/-- Modelled from the spec: the Trade Plan Calculator of
`utils/screener.py` (not under `src/`), §4.3: entry 1% above close, stop
the larger of just-under-sma50 and 8%-below-close, target at least the
52-week high and at least a 20% move, take-profits at 50% and 75% of the
entry-to-target distance, reward-to-risk as the quotient of reward over
risk. -/
def trade_plan (close sma50 rollingHigh52w : ℚ) : TradePlan :=
  { entry := close * (101 / 100)
    stop := max (sma50 * (99 / 100)) (close * (92 / 100))
    target := max rollingHigh52w (close * (120 / 100))
    tp50 := close * (101 / 100) +
      (1 / 2) * (max rollingHigh52w (close * (120 / 100)) - close * (101 / 100))
    tp75 := close * (101 / 100) +
      (3 / 4) * (max rollingHigh52w (close * (120 / 100)) - close * (101 / 100))
    rewardToRisk :=
      (max rollingHigh52w (close * (120 / 100)) - close * (101 / 100)) /
        (close * (101 / 100) - max (sma50 * (99 / 100)) (close * (92 / 100))) }

/-- C1: for every symbol the Trade Plan Calculator computes
entry = close × 1.01, stop = max(sma50 × 0.99, close × 0.92),
target = max(rollingHigh52w, close × 1.20) and
rewardToRisk = (target − entry) / (entry − stop). -/
theorem trade_plan_formulas (close sma50 rollingHigh52w : ℚ) :
    (trade_plan close sma50 rollingHigh52w).entry = close * (101 / 100) ∧
    (trade_plan close sma50 rollingHigh52w).stop =
      max (sma50 * (99 / 100)) (close * (92 / 100)) ∧
    (trade_plan close sma50 rollingHigh52w).target =
      max rollingHigh52w (close * (120 / 100)) ∧
    (trade_plan close sma50 rollingHigh52w).rewardToRisk =
      ((trade_plan close sma50 rollingHigh52w).target -
          (trade_plan close sma50 rollingHigh52w).entry) /
        ((trade_plan close sma50 rollingHigh52w).entry -
          (trade_plan close sma50 rollingHigh52w).stop) :=
  ⟨rfl, rfl, rfl, rfl⟩

/-! ### Trade Journal (spec §4.5, §3)

The journal store (`utils/journal.py`) is not part of the source tree; its
operations are modelled from the specification. The aggregate metrics are
embedded from `display_trading_journal` in `src/main.py` lines 363–394. -/

inductive TradeStatus where
  | Open
  | Closed
deriving DecidableEq

/-- A journal trade record (`TradeRecord` of spec §3): snapshot of the
plan at commit time, adjustable actual fields, lifecycle status, and the
P&L fields that are filled in on close. -/
structure TradeRecord where
  ticker : String
  entry_price : ℚ
  entry_date : Nat
  stop_loss : ℚ
  target : ℚ
  crv : ℚ
  pattern : String
  position_size : ℚ
  actual_position_size : ℚ
  trade_type : String
  actual_ko_investment : ℚ
  status : TradeStatus
  exit_price : Option ℚ
  exit_date : Option Nat
  pnl : Option ℚ
  pnl_pct : Option ℚ
deriving DecidableEq

/-- The plan data committed to he journal when a screening result is
selected (`src/main.py` lines 312–315). -/
structure TradeSetup where
  ticker : String
  entry_price : ℚ
  entry_date : Nat
  stop_loss : ℚ
  target : ℚ
  crv : ℚ
  pattern : String
  position_size : ℚ
  trade_type : String
  ko_investment : ℚ
deriving DecidableEq

/-- Modelled from the spec: `TradingJournal.add_trade`
(`utils/journal.py`, not under `src/`) — create(ScreenResult) → Open,
capturing a snapshot of the plan; the P&L fields start empty (§4.5, §3). -/
def open_trade (d : TradeSetup) : TradeRecord :=
  { ticker := d.ticker
    entry_price := d.entry_price
    entry_date := d.entry_date
    stop_loss := d.stop_loss
    target := d.target
    crv := d.crv
    pattern := d.pattern
    position_size := d.position_size
    actual_position_size := d.position_size
    trade_type := d.trade_type
    actual_ko_investment := d.ko_investment
    status := TradeStatus.Open
    exit_price := none
    exit_date := none
    pnl := none
    pnl_pct := none }

/-- Appending the newly opened record to the journal. -/
def add_trade (j : List TradeRecord) (d : TradeSetup) : List TradeRecord :=
  j ++ [open_trade d]

inductive JournalError where
  | InvalidState
deriving DecidableEq

/-- Modelled from the spec: `TradingJournal.update_trade_details`
(`utils/journal.py`, not under `src/`) — adjust is legal only while Open
and overwrites only the actual fields; on a Closed record it fails with
`InvalidState` (§4.5). -/
def update_trade_details (j : List TradeRecord) (idx : Nat)
    (newPos newKo : ℚ) (newType : String) :
    Except JournalError (List TradeRecord) :=
  match j[idx]? with
  | none => Except.error JournalError.InvalidState
  | some t =>
    match t.status with
    | TradeStatus.Open =>
      Except.ok (j.set idx
        { t with
          actual_position_size := newPos
          actual_ko_investment := newKo
          trade_type := newType })
    | TradeStatus.Closed => Except.error JournalError.InvalidState

/-- The record after a successful close: exit price and date stamped,
P&L = (exit − entry) × actual position size,
P&L% = (exit/entry − 1) × 100, status Closed (§4.5). -/
def close_record (t : TradeRecord) (exitPrice : ℚ) (today : Nat) :
    TradeRecord :=
  { t with
    status := TradeStatus.Closed
    exit_price := some exitPrice
    exit_date := some today
    pnl := some ((exitPrice - t.entry_price) * t.actual_position_size)
    pnl_pct := some ((exitPrice / t.entry_price - 1) * 100) }

/-- Modelled from the spec: `TradingJournal.close_trade`
(`utils/journal.py`, not under `src/`) — close is legal only while Open;
on a Closed record it fails with `InvalidState` rather than overwriting
(§4.5). -/
def close_trade (j : List TradeRecord) (idx : Nat) (exitPrice : ℚ)
    (today : Nat) : Except JournalError (List TradeRecord) :=
  match j[idx]? with
  | none => Except.error JournalError.InvalidState
  | some t =>
    match t.status with
    | TradeStatus.Open => Except.ok (j.set idx (close_record t exitPrice today))
    | TradeStatus.Closed => Except.error JournalError.InvalidState

/-- The journal as the UI holds it (`st.session_state.journal`,
`src/main.py` lines 484–500): a rejected transition leaves the stored
journal unchanged and surfaces the error. -/
def close_trade_apply (j : List TradeRecord) (idx : Nat) (exitPrice : ℚ)
    (today : Nat) : List TradeRecord × Option JournalError :=
  match close_trade j idx exitPrice today with
  | Except.ok j' => (j', none)
  | Except.error e => (j, some e)

/-- C4: close succeeds only while the record is Open, and closing is
exactly-once: if `close_trade` succeeded on index `i`, the record there
was Open; a second close on the result fails with `InvalidState` and the
journal — the record's P&L and every other field — is unchanged. -/
theorem close_trade_exactly_once (j j' : List TradeRecord) (i : Nat)
    (p p' : ℚ) (d d' : Nat) (h : close_trade j i p d = Except.ok j') :
    (∃ t, j[i]? = some t ∧ t.status = TradeStatus.Open) ∧
    close_trade j' i p' d' = Except.error JournalError.InvalidState ∧
    close_trade_apply j' i p' d' = (j', some JournalError.InvalidState) := by
  have hsplit : ∃ t, j[i]? = some t ∧ t.status = TradeStatus.Open ∧
      j' = j.set i (close_record t p d) := by
    unfold close_trade at h
    split at h
    · exact absurd h (by simp)
    · rename_i t hi
      split at h
      · rename_i hst
        exact ⟨t, hi, hst, (Except.ok.inj h).symm⟩
      · exact absurd h (by simp)
  obtain ⟨t, hi, hst, hj'⟩ := hsplit
  have hlen : i < j.length := by
    rcases List.getElem?_eq_some.1 hi with ⟨hl, _⟩
    exact hl
  have hget : j'[i]? = some (close_record t p d) := by
    rw [hj']
    exact List.getElem?_set_self (by simpa using hlen)
  have hclosed : close_trade j' i p' d' =
      Except.error JournalError.InvalidState := by
    unfold close_trade
    rw [hget]
    rfl
  refine ⟨⟨t, hi, hst⟩, hclosed, ?_⟩
  unfold close_trade_apply
  rw [hclosed]

/-- The concrete plan used by the journal examples. -/
def setupEx : TradeSetup :=
  { ticker := "AAPL"
    entry_price := 100
    entry_date := 0
    stop_loss := 95
    target := 130
    crv := 3
    pattern := "Breakout"
    position_size := 10
    trade_type := "Direct"
    ko_investment := 0 }

/-- The record of `setupEx` closed at exit price 120 on day 5. -/
def tradeClosedEx : TradeRecord := close_record (open_trade setupEx) 120 5

/-- A witness for C4: after closing the single open trade of the example
journal, a second close attempt fails with `InvalidState` and the journal
is unchanged. -/
theorem close_trade_exactly_once_witness :
    close_trade_apply [tradeClosedEx] 0 130 6 =
      ([tradeClosedEx], some JournalError.InvalidState) :=
  (close_trade_exactly_once (add_trade [] setupEx) [tradeClosedEx] 0 120 130
    5 6 rfl).2.2

/-! ### Journal aggregates (`display_trading_journal`, main.py lines 363–394) -/

/-- `journal_df[journal_df['Status'] == 'Closed']` (`src/main.py` line 384). -/
def closed_filter (j : List TradeRecord) : List TradeRecord :=
  j.filter (fun t => decide (t.status = TradeStatus.Closed))

/-- `closed_trades = len(...)` (`src/main.py` line 372). -/
def closed_count (j : List TradeRecord) : Nat :=
  (closed_filter j).length

/-- The `P&L` column value of a record; an Open record has no stored P&L. -/
def pnl_val (t : TradeRecord) : ℚ :=
  t.pnl.getD 0

/-- `winning_trades = len(closed_df[closed_df['P&L'] > 0])`
(`src/main.py` line 385). -/
def winning_count (j : List TradeRecord) : Nat :=
  ((closed_filter j).filter (fun t => decide (0 < pnl_val t))).length

/-- `win_rate = (winning_trades / closed_trades) * 100`
(`src/main.py` line 386), as displayed with a `%` sign. -/
def win_rate (j : List TradeRecord) : ℚ :=
  ((winning_count j : ℚ) / (closed_count j : ℚ)) * 100

/-- `total_pnl = closed_df['P&L'].sum()` (`src/main.py` line 387). -/
def total_pnl (j : List TradeRecord) : ℚ :=
  ((closed_filter j).map pnl_val).sum

/-- The performance-metrics block runs only under `if closed_trades > 0:`
(`src/main.py` lines 383–394). -/
def performance_metrics (j : List TradeRecord) : Option (ℚ × ℚ) :=
  if 0 < closed_count j then some (win_rate j, total_pnl j) else none

/-- C5: the journal aggregates of `src/main.py` lines 383–394: the win
rate (in the percent form the code stores and displays with a `%` sign)
is the count of Closed trades with positive P&L divided by the count of
Closed trades, times 100; the total P&L is the sum of P&L over Closed
trades only; and an Open trade contributes to neither aggregate. -/
theorem journal_aggregates (j : List TradeRecord) :
    win_rate j = ((j.countP (fun t =>
        decide (t.status = TradeStatus.Closed ∧ 0 < pnl_val t)) : ℚ) /
      (j.countP (fun t => decide (t.status = TradeStatus.Closed)) : ℚ)) * 100 ∧
    total_pnl j = ((j.filter (fun t =>
        decide (t.status = TradeStatus.Closed))).map pnl_val).sum ∧
    ∀ t : TradeRecord, t.status = TradeStatus.Open →
      win_rate (t :: j) = win_rate j ∧ total_pnl (t :: j) = total_pnl j := by
  refine ⟨?_, rfl, ?_⟩
  · have hwin : winning_count j = j.countP (fun t =>
        decide (t.status = TradeStatus.Closed ∧ 0 < pnl_val t)) := by
      rw [List.countP_eq_length_filter]
      unfold winning_count closed_filter
      rw [List.filter_filter]
      congr 1
      apply List.filter_congr
      intro t _
      by_cases h1 : t.status = TradeStatus.Closed <;>
        by_cases h2 : 0 < pnl_val t <;> simp [h1, h2]
    have hclosed : closed_count j =
        j.countP (fun t => decide (t.status = TradeStatus.Closed)) := by
      rw [List.countP_eq_length_filter]
      rfl
    rw [win_rate, hwin, hclosed]
  · intro t ht
    have hfilter : closed_filter (t :: j) = closed_filter j := by
      unfold closed_filter
      rw [List.filter_cons]
      simp [ht]
    constructor
    · unfold win_rate winning_count closed_count
      rw [hfilter]
    · unfold total_pnl
      rw [hfilter]

/-- A witness for C5: adding an Open trade to a one-trade journal changes
neither the win rate nor the total P&L. -/
theorem journal_aggregates_witness :
    win_rate (open_trade setupEx :: [tradeClosedEx]) = win_rate [tradeClosedEx] ∧
    total_pnl (open_trade setupEx :: [tradeClosedEx]) = total_pnl [tradeClosedEx] :=
  (journal_aggregates [tradeClosedEx]).2.2 (open_trade setupEx) rfl

/-- C9: the performance metrics (win rate, total P&L) are produced iff the
journal has at least one Closed trade, so the division by
`closed_trades` in the win rate is never a division by zero. -/
theorem metrics_guarded (j : List TradeRecord) :
    ((performance_metrics j).isSome ↔ 0 < closed_count j) ∧
    ((performance_metrics j).isSome = true → (closed_count j : ℚ) ≠ 0) := by
  have hiff : (performance_metrics j).isSome ↔ 0 < closed_count j := by
    unfold performance_metrics
    by_cases h : 0 < closed_count j <;> simp [h]
  refine ⟨hiff, fun h => ?_⟩
  have hpos : 0 < closed_count j := hiff.1 h
  exact (Nat.cast_ne_zero (R := ℚ)).2 hpos.ne'

/-- A witness for C9: the example journal with one Closed trade has
metrics, and its Closed-trade count is non-zero as a rational. -/
theorem metrics_guarded_witness : ((closed_count [tradeClosedEx] : ℚ) ≠ 0) :=
  (metrics_guarded [tradeClosedEx]).2 (by decide)

/-! ### The P&L-iff-Closed invariant (spec §3) -/

/-- The P&L fields of a record are populated: exit price, exit date,
realized P&L (absolute and percent) are all present. -/
def pnl_populated (t : TradeRecord) : Prop :=
  t.exit_price.isSome = true ∧ t.exit_date.isSome = true ∧
  t.pnl.isSome = true ∧ t.pnl_pct.isSome = true

/-- The journals reachable from the empty journal by any sequence of
create / adjust / close operations (spec §4.5: records are never deleted
in this core). -/
inductive Reachable : List TradeRecord → Prop where
  | nil : Reachable []
  | create (j : List TradeRecord) (d : TradeSetup) :
      Reachable j → Reachable (add_trade j d)
  | adjust (j : List TradeRecord) (i : Nat) (np nk : ℚ) (nt : String)
      (j' : List TradeRecord) : Reachable j →
      update_trade_details j i np nk nt = Except.ok j' → Reachable j'
  | close (j : List TradeRecord) (i : Nat) (p : ℚ) (dd : Nat)
      (j' : List TradeRecord) : Reachable j →
      close_trade j i p dd = Except.ok j' → Reachable j'

/-- C6: in every journal reachable by create/adjust/close, a record's P&L
fields (exit price, exit date, realized P&L absolute and percent) are
populated if and only if its status is Closed. -/
theorem pnl_iff_closed (j : List TradeRecord) (h : Reachable j) :
    ∀ t ∈ j, (pnl_populated t ↔ t.status = TradeStatus.Closed) := by
  induction h with
  | nil =>
    intro t ht
    simp at ht
  | create j d _ ih =>
    intro t ht
    rcases List.mem_append.1 ht with h1 | h2
    · exact ih t h1
    · have heq : t = open_trade d := by simpa using h2
      subst heq
      constructor
      · rintro ⟨hp, _, _, _⟩
        simp [open_trade] at hp
      · intro hs
        simp [open_trade] at hs
  | adjust j i np nk nt j' _ hok ih =>
    unfold update_trade_details at hok
    split at hok
    · exact absurd hok (by simp)
    · rename_i t0 hi
      split at hok
      · rename_i hst
        have hj' := (Except.ok.inj hok).symm
        subst hj'
        intro t ht
        rcases List.mem_or_eq_of_mem_set ht with hmem | heq
        · exact ih t hmem
        · subst heq
          exact ih t0 (List.getElem?_mem hi)
      · exact absurd hok (by simp)
  | close j i p dd j' _ hok ih =>
    unfold close_trade at hok
    split at hok
    · exact absurd hok (by simp)
    · rename_i t0 hi
      split at hok
      · have hj' := (Except.ok.inj hok).symm
        subst hj'
        intro t ht
        rcases List.mem_or_eq_of_mem_set ht with hmem | heq
        · exact ih t hmem
        · subst heq
          exact ⟨fun _ => rfl, fun _ => ⟨rfl, rfl, rfl, rfl⟩⟩
      · exact absurd hok (by simp)

/-- A witness for C6: in the journal obtained by creating one trade and
closing it, the closed record's P&L fields are populated iff its status
is Closed. -/
theorem pnl_iff_closed_witness :
    pnl_populated tradeClosedEx ↔ tradeClosedEx.status = TradeStatus.Closed :=
  pnl_iff_closed [tradeClosedEx]
    (Reachable.close (add_trade [] setupEx) 0 120 5 [tradeClosedEx]
      (Reachable.create [] setupEx Reachable.nil) rfl)
    tradeClosedEx (by simp)

end Minervini
